import Mathlib

/-!
# Verification of the gRPC chat core (Dorazi23/gRPC_Chat_Project)

Shallow embedding of the chat server core: the Postgres-backed
`ChatRepository` (internal/user/repository.go), the `ChatServer` with its
in-memory client registry, `GetRoomID` room-identifier derivation,
`broadcastMessage`, and the `JoinChat` bidirectional-stream handler.

Machine state that Go keeps implicitly (the database, the `clients` map,
the gRPC streams) is made explicit: the database is a `DBState`, the
registry an association list from room id to the ordered slice of session
ids, and a stream send is a boolean-valued environment function saying
whether `Send` to a given session succeeds on a given message. The
side effects of a `JoinChat` call are recorded as an explicit event trace.
-/

namespace ChatCore

/-- Wire message (`chatpb.ChatMessage`): room id, username, body. -/
structure ChatMessage where
  roomid : String
  username : String
  message : String
deriving DecidableEq, Repr

/-- Row of the `messages` table (`user.MessageRecord`), with `sentAt`
modelled as a natural-number timestamp. -/
structure MessageRecord where
  roomID : String
  senderID : String
  username : String
  messageContent : String
  sentAt : Nat
deriving DecidableEq, Repr

/-- Row of the `users` table: username, uuid primary key `id`, and
`created_at` as a natural-number timestamp. -/
structure UserRow where
  username : String
  id : String
  createdAt : Nat
deriving DecidableEq, Repr

/-- The persistent database state: `users`, `rooms` (room id and the two
participant ids), `messages`, and a monotone clock supplying the
`sent_at` value for newly inserted messages. -/
structure DBState where
  users : List UserRow
  rooms : List (String × String × String)
  messages : List MessageRecord
  clock : Nat
deriving DecidableEq, Repr

/-- `chatRepo.UserExists`: `SELECT 1 FROM users WHERE username = $1 LIMIT 1`. -/
def UserExists (db : DBState) (username : String) : Bool :=
  db.users.any (fun u => u.username == username)

/-- `chatRepo.GetUserInfo`: `SELECT id, created_at FROM users WHERE
username = $1`, returning the uuid and creation time, or none when the
row is absent. -/
def GetUserInfo (db : DBState) (username : String) : Option (String × Nat) :=
  (db.users.find? (fun u => u.username == username)).map (fun u => (u.id, u.createdAt))

/-- `chatRepo.EnsureRoomExists` (the uuid-prefix version): `INSERT INTO
rooms ... ON CONFLICT (room_id) DO NOTHING`. -/
def EnsureRoomExists (db : DBState) (roomID user1ID user2ID : String) : DBState :=
  if db.rooms.any (fun r => r.1 == roomID) then db
  else { db with rooms := db.rooms ++ [(roomID, user1ID, user2ID)] }

/-- `chatRepo.SaveMessage`: `INSERT INTO messages (room_id, sender_id,
username, message_content) VALUES ...`; `sent_at` defaults to the current
clock, which then advances. -/
def SaveMessage (db : DBState) (roomID senderID username messageContent : String) : DBState :=
  { db with
    messages := db.messages ++ [⟨roomID, senderID, username, messageContent, db.clock⟩]
    clock := db.clock + 1 }

/-- Stable insertion into a list ascending by `sentAt` (an equal or
smaller key stays in front). -/
def insertBySentAt (r : MessageRecord) : List MessageRecord → List MessageRecord
  | [] => [r]
  | x :: xs => if x.sentAt ≤ r.sentAt then x :: insertBySentAt r xs else r :: x :: xs

/-- `ORDER BY sent_at ASC` as a stable insertion sort. -/
def sortBySentAt : List MessageRecord → List MessageRecord
  | [] => []
  | x :: xs => insertBySentAt x (sortBySentAt xs)

/-- `chatRepo.GetMessagesByRoomID`: `SELECT ... FROM messages WHERE
room_id = $1 ORDER BY sent_at ASC LIMIT $2`. -/
def GetMessagesByRoomID (db : DBState) (roomID : String) (limit : Nat) : List MessageRecord :=
  (sortBySentAt (db.messages.filter (fun r => r.roomID == roomID))).take limit

/-- gRPC status codes appearing in the chat server. -/
inductive Code
  | InvalidArgument
  | NotFound
  | Internal
  | Unauthenticated
deriving DecidableEq, Repr

/-- Go `s[:n]` on an identifier string. -/
def strTake (s : String) (n : Nat) : String :=
  ⟨s.data.take n⟩

/-- Lines 56-64 of the chat server: pick `firstUUID`/`secondUUID` by
creation time ascending, breaking an exact tie by comparing the uuid
strings. -/
def orderUUIDs (uuid1 : String) (created1 : Nat) (uuid2 : String) (created2 : Nat) :
    String × String :=
  if created1 < created2 ∨ (created1 = created2 ∧ uuid1 < uuid2) then (uuid1, uuid2)
  else (uuid2, uuid1)

/-- Written from the spec sentence, for comparison with the code: order
the fetched pair (identifier, creation time) by creation timestamp
ascending, breaking ties by lexicographic comparison of the unique
identifier. -/
def specOrderPair (a b : String × Nat) : (String × Nat) × (String × Nat) :=
  if a.2 < b.2 ∨ (a.2 = b.2 ∧ a.1 ≤ b.1) then (a, b) else (b, a)

/-- `ChatServer.GetRoomID`: derives the 6-character room id from the
first 3 characters of each participant uuid, ordered by account-creation
time ascending with the uuid string as tie break, then idempotently
creates the room row. Returns the room id together with the database
state after `EnsureRoomExists`. -/
def GetRoomID (db : DBState) (myID otherID : String) : Except Code (String × DBState) :=
  if myID == "" || otherID == "" then
    .error .InvalidArgument
  else
    match GetUserInfo db myID with
    | none => .error .NotFound
    | some (uuid1, created1) =>
      match GetUserInfo db otherID with
      | none => .error .NotFound
      | some (uuid2, created2) =>
        let p : String × String := orderUUIDs uuid1 created1 uuid2 created2
        let firstUUID := p.1
        let secondUUID := p.2
        if firstUUID.length < 3 ∨ secondUUID.length < 3 then
          .error .Internal
        else
          let roomID := strTake firstUUID 3 ++ strTake secondUUID 3
          .ok (roomID, EnsureRoomExists db roomID myID otherID)

/-! ## The in-memory registry (`ChatServer.clients`) and streams

`clients : map[string][]chatpb.ChatService_JoinChatServer` becomes an
association list from room id to the ordered slice of session ids. A
stream is identified by its session id; whether `stream.Send` succeeds is
an environment function `send : SessionId → ChatMessage → Bool`. -/

/-- A session id stands for one `JoinChat` stream handle. -/
abbrev SessionId := Nat

/-- The `clients` map of `ChatServer`. -/
abbrev Registry := List (String × List SessionId)

/-- Go map read `s.clients[roomID]` (a missing key yields the empty slice). -/
def regGet (reg : Registry) (roomID : String) : List SessionId :=
  match reg.find? (fun p => p.1 == roomID) with
  | some p => p.2
  | none => []

/-- Go map write `s.clients[roomID] = ss`. -/
def regSet (reg : Registry) (roomID : String) (ss : List SessionId) : Registry :=
  if reg.any (fun p => p.1 == roomID) then
    reg.map (fun p => if p.1 == roomID then (p.1, ss) else p)
  else
    reg ++ [(roomID, ss)]

/-- Go `delete(s.clients, roomID)`. -/
def regDelete (reg : Registry) (roomID : String) : Registry :=
  reg.filter (fun p => p.1 != roomID)

/-- `ChatServer.broadcastMessage`: snapshot the slice for `roomID` under
the read lock, then `Send` the message to each client in turn; a failed
send is only logged. The result is the registry after the call (the
function performs no write to `clients`) together with the list of
delivery attempts, one `(session, succeeded)` pair per snapshotted
client. -/
def broadcastMessage (send : SessionId → ChatMessage → Bool) (reg : Registry)
    (roomID : String) (msg : ChatMessage) : Registry × List (SessionId × Bool) :=
  (reg, (regGet reg roomID).map (fun c => (c, send c msg)))

/-! ## The `JoinChat` handler as an event-trace state machine -/

/-- Observable side effects of one `JoinChat` call, in execution order. -/
inductive Event
  | replaySend (sid : SessionId) (m : ChatMessage) (ok : Bool)
  | register (roomID : String) (sid : SessionId)
  | save (roomID senderID username body : String)
  | bcast (roomID : String) (sid : SessionId) (m : ChatMessage) (ok : Bool)
  | unregister (roomID : String) (sid : SessionId)
  | deleteRoom (roomID : String)
deriving DecidableEq, Repr

/-- How the inbound stream ends after the recorded frames: graceful
end-of-stream (`io.EOF`) or a receive error (including transport
cancellation). -/
inductive Terminal
  | eof
  | recvErr
deriving DecidableEq, Repr

/-- Return value of `JoinChat`: `nil`, a gRPC status error, or the raw
receive error forwarded from the loop. -/
inductive Outcome
  | ok
  | errCode (c : Code)
  | recvError
deriving DecidableEq, Repr

/-- Result of a `JoinChat` call: final database, final registry, event
trace, and the return value of the handler. -/
structure JoinResult where
  db : DBState
  reg : Registry
  events : List Event
  outcome : Outcome
deriving DecidableEq, Repr

/-- History replay (step 3 of `JoinChat`): send each loaded record to the
joining stream, stopping after the first failed send; the failure only
breaks the loop. -/
def replayLoop (send : SessionId → ChatMessage → Bool) (sid : SessionId) :
    List MessageRecord → List Event
  | [] => []
  | r :: rest =>
    let m : ChatMessage := ⟨r.roomID, r.username, r.messageContent⟩
    if send sid m then Event.replaySend sid m true :: replayLoop send sid rest
    else [Event.replaySend sid m false]

/-- One iteration of the receive loop (step 7 of `JoinChat`) on a
successfully received frame: an empty body is skipped; otherwise the
frame is saved under the room id carried in the frame and broadcast to
that room. The registry is read, never written, by the loop. -/
def processFrame (send : SessionId → ChatMessage → Bool) (reg : Registry)
    (senderID : String) (db : DBState) (msg : ChatMessage) : DBState × List Event :=
  if msg.message == "" then
    (db, [])
  else
    let db1 := SaveMessage db msg.roomid senderID msg.username msg.message
    let atts := (broadcastMessage send reg msg.roomid msg).2
    (db1, Event.save msg.roomid senderID msg.username msg.message ::
      atts.map (fun a => Event.bcast msg.roomid a.1 msg a.2))

/-- The receive loop over all successfully received frames. -/
def processFrames (send : SessionId → ChatMessage → Bool) (reg : Registry)
    (senderID : String) : DBState → List ChatMessage → DBState × List Event
  | db, [] => (db, [])
  | db, m :: rest =>
    let r1 := processFrame send reg senderID db m
    let r2 := processFrames send reg senderID r1.1 rest
    (r2.1, r1.2 ++ r2.2)

/-- The deferred cleanup of `JoinChat` (step 5): rebuild the slice of the
handshake room without this stream; when nothing remains, delete the
room entry from the map. -/
def cleanup (reg : Registry) (roomID : String) (sid : SessionId) : Registry × List Event :=
  let updated := (regGet reg roomID).filter (fun c => c ≠ sid)
  if updated.isEmpty then
    (regDelete reg roomID, [Event.unregister roomID sid, Event.deleteRoom roomID])
  else
    (regSet reg roomID updated, [Event.unregister roomID sid])

/-- `ChatServer.JoinChat`, for a single session `sid` running to
completion: handshake validation, identity check, history replay,
registration, join-message save and broadcast, the receive loop over
`frames`, and the deferred unregistration. `initOpt = none` models a
failed initial receive; `term` says how the stream ends after `frames`. -/
def joinChat (send : SessionId → ChatMessage → Bool) (db0 : DBState) (reg0 : Registry)
    (sid : SessionId) (initOpt : Option ChatMessage) (frames : List ChatMessage)
    (term : Terminal) : JoinResult :=
  match initOpt with
  | none => ⟨db0, reg0, [], .errCode .InvalidArgument⟩
  | some initialMsg =>
    if initialMsg.roomid == "" then ⟨db0, reg0, [], .errCode .InvalidArgument⟩
    else if initialMsg.username == "" then ⟨db0, reg0, [], .errCode .InvalidArgument⟩
    else if ¬ UserExists db0 initialMsg.username then
      ⟨db0, reg0, [], .errCode .Unauthenticated⟩
    else
      let roomID := initialMsg.roomid
      let userName := initialMsg.username
      let senderID := "TEMP_USER_" ++ userName
      let history := GetMessagesByRoomID db0 roomID 50
      let replayEvs := replayLoop send sid history
      let reg1 := regSet reg0 roomID (regGet reg0 roomID ++ [sid])
      let db1 := SaveMessage db0 roomID senderID userName initialMsg.message
      let joinBcast := broadcastMessage send reg1 roomID initialMsg
      let joinEvs := joinBcast.2.map (fun a => Event.bcast roomID a.1 initialMsg a.2)
      let active := processFrames send joinBcast.1 senderID db1 frames
      let cleaned := cleanup joinBcast.1 roomID sid
      let out : Outcome := match term with
        | .eof => .ok
        | .recvErr => .recvError
      ⟨active.1, cleaned.1,
        replayEvs ++ [Event.register roomID sid, Event.save roomID senderID userName initialMsg.message]
          ++ joinEvs ++ active.2 ++ cleaned.2,
        out⟩

/-! ## Helper lemmas: registry operations -/

/-- Boolean discriminator for unregistration events. -/
def Event.isUnregister : Event → Bool
  | .unregister _ _ => true
  | _ => false

theorem regGet_map_update (reg : Registry) (r : String) (ss : List SessionId)
    (h : reg.any (fun p => p.1 == r) = true) :
    regGet (reg.map (fun p => if p.1 == r then (p.1, ss) else p)) r = ss := by
  induction reg with
  | nil => simp at h
  | cons p rest ih =>
    by_cases hp : p.1 = r
    · simp [regGet, List.find?, hp]
    · have hp2 : (p.1 == r) = false := beq_eq_false_iff_ne.mpr hp
      simp only [List.any_cons, hp2, Bool.false_or] at h
      simpa [regGet, List.find?, hp2, hp] using ih h

theorem regGet_regSet_self (reg : Registry) (r : String) (ss : List SessionId) :
    regGet (regSet reg r ss) r = ss := by
  unfold regSet
  by_cases h : reg.any (fun p => p.1 == r) = true
  · simpa [h] using regGet_map_update reg r ss h
  · have hfalse : reg.any (fun p => p.1 == r) = false := Bool.eq_false_iff.mpr h
    have h2 : ∀ p ∈ reg, ¬ (p.1 == r) = true := by
      intro p hp
      simpa using List.any_eq_false.mp hfalse p hp
    have hfind : reg.find? (fun p => p.1 == r) = none := List.find?_eq_none.mpr h2
    simp only [h, if_false]
    simp [regGet, List.find?_append, hfind]

theorem mem_regDelete (reg : Registry) (r : String) (p : String × List SessionId)
    (hp : p ∈ regDelete reg r) : p.1 ≠ r := by
  unfold regDelete at hp
  have := (List.mem_filter.mp hp).2
  simpa using this

/-! ## Helper lemmas: event traces -/

theorem mem_replayLoop (send : SessionId → ChatMessage → Bool) (sid : SessionId)
    (hist : List MessageRecord) (e : Event) (he : e ∈ replayLoop send sid hist) :
    ∃ m ok, e = Event.replaySend sid m ok := by
  induction hist with
  | nil => simp [replayLoop] at he
  | cons r rest ih =>
    simp only [replayLoop] at he
    by_cases hs : send sid ⟨r.roomID, r.username, r.messageContent⟩ = true
    · simp only [hs, if_true, List.mem_cons] at he
      rcases he with he | he
      · exact ⟨_, _, he⟩
      · exact ih he
    · have hs2 : send sid ⟨r.roomID, r.username, r.messageContent⟩ = false :=
        Bool.eq_false_iff.mpr hs
      simp only [hs2, Bool.false_eq_true, if_false, List.mem_singleton] at he
      exact ⟨_, _, he⟩

theorem mem_processFrame_events (send : SessionId → ChatMessage → Bool) (reg : Registry)
    (senderID : String) (db : DBState) (m : ChatMessage) (e : Event)
    (he : e ∈ (processFrame send reg senderID db m).2) :
    (∃ r s u b, e = Event.save r s u b) ∨ (∃ r c mm ok, e = Event.bcast r c mm ok) := by
  simp only [processFrame] at he
  by_cases hm : (m.message == "") = true
  · simp [hm] at he
  · have hm2 : (m.message == "") = false := Bool.eq_false_iff.mpr hm
    simp only [hm2, Bool.false_eq_true, if_false, List.mem_cons] at he
    rcases he with he | he
    · exact Or.inl ⟨_, _, _, _, he⟩
    · rcases List.mem_map.mp he with ⟨a, _, ha⟩
      exact Or.inr ⟨_, _, _, _, ha.symm⟩

theorem mem_processFrames_events (send : SessionId → ChatMessage → Bool) (reg : Registry)
    (senderID : String) (frames : List ChatMessage) (db : DBState) (e : Event)
    (he : e ∈ (processFrames send reg senderID db frames).2) :
    (∃ r s u b, e = Event.save r s u b) ∨ (∃ r c mm ok, e = Event.bcast r c mm ok) := by
  induction frames generalizing db with
  | nil => simp [processFrames] at he
  | cons m rest ih =>
    simp only [processFrames, List.mem_append] at he
    rcases he with he | he
    · exact mem_processFrame_events send reg senderID db m e he
    · exact ih _ he

theorem mem_cleanup_events (reg : Registry) (roomID : String) (sid : SessionId) (e : Event)
    (he : e ∈ (cleanup reg roomID sid).2) :
    e = Event.unregister roomID sid ∨ e = Event.deleteRoom roomID := by
  simp only [cleanup] at he
  by_cases hc : ((regGet reg roomID).filter (fun c => decide (c ≠ sid))).isEmpty = true
  · simp only [hc, if_true, List.mem_cons, List.mem_singleton] at he
    tauto
  · have hc2 := Bool.eq_false_iff.mpr hc
    simp only [hc2, Bool.false_eq_true, if_false, List.mem_singleton] at he
    exact Or.inl he

theorem unregister_mem_cleanup (reg : Registry) (roomID : String) (sid : SessionId) :
    Event.unregister roomID sid ∈ (cleanup reg roomID sid).2 := by
  simp only [cleanup]
  split <;> simp

theorem countP_unregister_replayLoop (send : SessionId → ChatMessage → Bool)
    (sid : SessionId) (hist : List MessageRecord) :
    (replayLoop send sid hist).countP Event.isUnregister = 0 := by
  rw [List.countP_eq_zero]
  intro e he
  rcases mem_replayLoop send sid hist e he with ⟨m, ok, rfl⟩
  simp [Event.isUnregister]

theorem countP_unregister_processFrames (send : SessionId → ChatMessage → Bool)
    (reg : Registry) (senderID : String) (frames : List ChatMessage) (db : DBState) :
    ((processFrames send reg senderID db frames).2).countP Event.isUnregister = 0 := by
  rw [List.countP_eq_zero]
  intro e he
  rcases mem_processFrames_events send reg senderID frames db e he with
    ⟨r, s, u, b, rfl⟩ | ⟨r, c, mm, ok, rfl⟩ <;> simp [Event.isUnregister]

theorem countP_unregister_cleanup (reg : Registry) (roomID : String) (sid : SessionId) :
    ((cleanup reg roomID sid).2).countP Event.isUnregister = 1 := by
  simp only [cleanup]
  split <;> simp [List.countP_cons, Event.isUnregister]

theorem mem_messages_processFrames (send : SessionId → ChatMessage → Bool) (reg : Registry)
    (senderID : String) (frames : List ChatMessage) (db : DBState) (x : MessageRecord)
    (hx : x ∈ db.messages) :
    x ∈ (processFrames send reg senderID db frames).1.messages := by
  induction frames generalizing db with
  | nil => simpa [processFrames]
  | cons m rest ih =>
    simp only [processFrames]
    apply ih
    simp only [processFrame]
    split
    · exact hx
    · simp only [SaveMessage, List.mem_append]
      exact Or.inl hx

/-- The return value of `JoinChat` depends only on the handshake checks
and on how the stream ends, never on delivery outcomes. -/
theorem joinChat_outcome (send : SessionId → ChatMessage → Bool) (db0 : DBState)
    (reg0 : Registry) (sid : SessionId) (initOpt : Option ChatMessage)
    (frames : List ChatMessage) (term : Terminal) :
    (joinChat send db0 reg0 sid initOpt frames term).outcome =
      match initOpt with
      | none => .errCode .InvalidArgument
      | some m =>
        if m.roomid == "" then .errCode .InvalidArgument
        else if m.username == "" then .errCode .InvalidArgument
        else if ¬ UserExists db0 m.username then .errCode .Unauthenticated
        else
          match term with
          | .eof => .ok
          | .recvErr => .recvError := by
  cases initOpt with
  | none => rfl
  | some m =>
    simp only [joinChat]
    split
    · rfl
    · split
      · rfl
      · split
        · rfl
        · rfl

/-- Unfolding of a `JoinChat` call that passes the handshake checks. -/
theorem joinChat_valid (send : SessionId → ChatMessage → Bool) (db0 : DBState)
    (reg0 : Registry) (sid : SessionId) (init : ChatMessage)
    (frames : List ChatMessage) (term : Terminal)
    (h1 : init.roomid ≠ "") (h2 : init.username ≠ "")
    (h3 : UserExists db0 init.username = true) :
    joinChat send db0 reg0 sid (some init) frames term =
      let roomID := init.roomid
      let senderID := "TEMP_USER_" ++ init.username
      let reg1 := regSet reg0 roomID (regGet reg0 roomID ++ [sid])
      let db1 := SaveMessage db0 roomID senderID init.username init.message
      ⟨(processFrames send reg1 senderID db1 frames).1,
       (cleanup reg1 roomID sid).1,
       replayLoop send sid (GetMessagesByRoomID db0 roomID 50)
         ++ [Event.register roomID sid, Event.save roomID senderID init.username init.message]
         ++ (regGet reg0 roomID ++ [sid]).map (fun c => Event.bcast roomID c init (send c init))
         ++ (processFrames send reg1 senderID db1 frames).2
         ++ (cleanup reg1 roomID sid).2,
       match term with
       | .eof => .ok
       | .recvErr => .recvError⟩ := by
  have e1 : (init.roomid == "") = false := beq_eq_false_iff_ne.mpr h1
  have e2 : (init.username == "") = false := beq_eq_false_iff_ne.mpr h2
  simp only [joinChat, e1, e2, h3, Bool.false_eq_true, if_false, not_true, ite_false,
    broadcastMessage, regGet_regSet_self, List.map_map]
  rfl

/-! ## Helper lemmas: room-identifier derivation -/

theorem orderUUIDs_comm (u1 : String) (t1 : Nat) (u2 : String) (t2 : Nat) :
    orderUUIDs u1 t1 u2 t2 = orderUUIDs u2 t2 u1 t1 := by
  unfold orderUUIDs
  rcases Nat.lt_trichotomy t1 t2 with h | h | h
  · rw [if_pos (Or.inl h), if_neg]
    rintro (h2 | ⟨h2, _⟩)
    · omega
    · omega
  · subst h
    rcases lt_trichotomy u1 u2 with hu | hu | hu
    · rw [if_pos (Or.inr ⟨rfl, hu⟩), if_neg]
      rintro (h2 | ⟨_, h2⟩)
      · omega
      · exact absurd h2 (lt_asymm hu)
    · subst hu
      rw [if_neg (fun h2 => h2.elim (fun h3 => absurd h3 (lt_irrefl t1))
            (fun h3 => absurd h3.2 (lt_irrefl u1)))]
    · rw [if_neg, if_pos (Or.inr ⟨rfl, hu⟩)]
      rintro (h2 | ⟨_, h2⟩)
      · omega
      · exact absurd h2 (lt_asymm hu)
  · rw [if_neg, if_pos (Or.inl h)]
    rintro (h2 | ⟨h2, _⟩)
    · omega
    · omega

theorem orderUUIDs_eq_spec (u1 : String) (t1 : Nat) (u2 : String) (t2 : Nat) :
    orderUUIDs u1 t1 u2 t2
      = ((specOrderPair (u1, t1) (u2, t2)).1.1, (specOrderPair (u1, t1) (u2, t2)).2.1) := by
  unfold orderUUIDs specOrderPair
  rcases Nat.lt_trichotomy t1 t2 with h | h | h
  · rw [if_pos (Or.inl h), if_pos (Or.inl h)]
  · subst h
    rcases lt_trichotomy u1 u2 with hu | hu | hu
    · rw [if_pos (Or.inr ⟨rfl, hu⟩), if_pos (Or.inr ⟨rfl, le_of_lt hu⟩)]
    · subst hu
      rw [if_neg (fun h2 => h2.elim (fun h3 => absurd h3 (lt_irrefl t1))
            (fun h3 => absurd h3.2 (lt_irrefl u1))),
          if_pos (Or.inr ⟨rfl, le_refl u1⟩)]
    · rw [if_neg (fun h2 => h2.elim (fun h3 => absurd h3 (lt_irrefl t1))
            (fun h3 => absurd h3.2 (lt_asymm hu))),
          if_neg (fun h2 => h2.elim (fun h3 => absurd h3 (lt_irrefl t1))
            (fun h3 => absurd h3.2 (not_le_of_lt hu)))]
  · rw [if_neg (fun h2 => h2.elim (fun h3 => absurd h3 (Nat.lt_asymm h))
          (fun h3 => absurd h3.1 (Nat.ne_of_gt h))),
        if_neg (fun h2 => h2.elim (fun h3 => absurd h3 (Nat.lt_asymm h))
          (fun h3 => absurd h3.1 (Nat.ne_of_gt h)))]

theorem orderUUIDs_cases (u1 : String) (t1 : Nat) (u2 : String) (t2 : Nat) :
    orderUUIDs u1 t1 u2 t2 = (u1, u2) ∨ orderUUIDs u1 t1 u2 t2 = (u2, u1) := by
  unfold orderUUIDs
  split
  · exact Or.inl rfl
  · exact Or.inr rfl

theorem strTake_length (s : String) (n : Nat) :
    (strTake s n).length = min n s.length := by
  show (s.data.take n).length = min n s.data.length
  exact List.length_take n s.data

theorem GetRoomID_valid (db : DBState) (A B u1 u2 : String) (t1 t2 : Nat)
    (hA0 : A ≠ "") (hB0 : B ≠ "")
    (hA : GetUserInfo db A = some (u1, t1)) (hB : GetUserInfo db B = some (u2, t2))
    (hl1 : 3 ≤ u1.length) (hl2 : 3 ≤ u2.length) :
    GetRoomID db A B
      = .ok (strTake (orderUUIDs u1 t1 u2 t2).1 3 ++ strTake (orderUUIDs u1 t1 u2 t2).2 3,
          EnsureRoomExists db
            (strTake (orderUUIDs u1 t1 u2 t2).1 3 ++ strTake (orderUUIDs u1 t1 u2 t2).2 3) A B) := by
  have eA : (A == "") = false := beq_eq_false_iff_ne.mpr hA0
  have eB : (B == "") = false := beq_eq_false_iff_ne.mpr hB0
  have hlen : ¬ ((orderUUIDs u1 t1 u2 t2).1.length < 3 ∨ (orderUUIDs u1 t1 u2 t2).2.length < 3) := by
    rcases orderUUIDs_cases u1 t1 u2 t2 with h | h <;> rw [h] <;> push_neg <;>
      refine ⟨?_, ?_⟩ <;> simp only [] <;> omega
  · simp only [GetRoomID, eA, eB, Bool.or_self, Bool.false_eq_true, if_false, hA, hB]
    rw [if_neg hlen]

/-! ## Claim theorems -/

/-- C1, counterexample: with one registered session in room r whose
delivery fails, that session is still present in the registry set for r
immediately after `broadcastMessage` returns, contrary to the claim that
every failed recipient has been removed. -/
theorem broadcast_failed_recipient_still_registered :
    (fun (_ : SessionId) (_ : ChatMessage) => false) 0
        (⟨"r", "u", "x"⟩ : ChatMessage) = false ∧
    0 ∈ regGet (broadcastMessage (fun _ _ => false) [("r", [0])] "r" ⟨"r", "u", "x"⟩).1 "r" := by
  constructor
  · rfl
  · decide

/-- C1, amended: `broadcastMessage` performs no registry mutation at
all — the registry after a broadcast pass equals the registry before it,
and every session whose delivery failed during the pass remains
registered in the room; failed deliveries are only logged. -/
theorem broadcast_registry_unchanged (send : SessionId → ChatMessage → Bool)
    (reg : Registry) (roomID : String) (msg : ChatMessage) :
    (broadcastMessage send reg roomID msg).1 = reg ∧
    ∀ c ∈ regGet reg roomID, send c msg = false →
      c ∈ regGet (broadcastMessage send reg roomID msg).1 roomID := by
  refine ⟨rfl, ?_⟩
  intro c hc _
  simpa [broadcastMessage] using hc

/-- Witness for the amended C1 at a concrete failing recipient. -/
theorem broadcast_registry_unchanged_witness :
    (broadcastMessage (fun _ _ => false) [("r", [0])] "r" ⟨"r", "u", "x"⟩).1 = [("r", [0])] ∧
    0 ∈ regGet (broadcastMessage (fun _ _ => false) [("r", [0])] "r" ⟨"r", "u", "x"⟩).1 "r" :=
  ⟨(broadcast_registry_unchanged (fun _ _ => false) [("r", [0])] "r" ⟨"r", "u", "x"⟩).1,
   (broadcast_registry_unchanged (fun _ _ => false) [("r", [0])] "r" ⟨"r", "u", "x"⟩).2 0
     (by decide) rfl⟩

/-- C2: for every pair of identities A and B registered in the gateway,
`GetRoomID` returns the same room identifier for (A, B) and (B, A),
including when the two creation timestamps are equal. -/
theorem GetRoomID_commutative (db : DBState) (A B u1 u2 : String) (t1 t2 : Nat)
    (hA : GetUserInfo db A = some (u1, t1)) (hB : GetUserInfo db B = some (u2, t2)) :
    (GetRoomID db A B).map Prod.fst = (GetRoomID db B A).map Prod.fst := by
  by_cases hA0 : A = ""
  · subst hA0
    simp [GetRoomID]
  · by_cases hB0 : B = ""
    · subst hB0
      simp [GetRoomID]
    · have eA : (A == "") = false := beq_eq_false_iff_ne.mpr hA0
      have eB : (B == "") = false := beq_eq_false_iff_ne.mpr hB0
      simp only [GetRoomID, eA, eB, Bool.or_self, Bool.or_false, Bool.false_or,
        Bool.false_eq_true, if_false, hA, hB]
      rw [orderUUIDs_comm u2 t2 u1 t1]
      by_cases hc : ((orderUUIDs u1 t1 u2 t2).1.length < 3 ∨ (orderUUIDs u1 t1 u2 t2).2.length < 3)
      · rw [if_pos hc, if_pos hc]
      · rw [if_neg hc, if_neg hc]
        rfl

/-- Witness for C2 on a concrete two-user database. -/
theorem GetRoomID_commutative_witness :
    (GetRoomID ⟨[⟨"alice", "u-alice-uuid", 1⟩, ⟨"bob", "u-bob-uuid", 2⟩], [], [], 0⟩
        "alice" "bob").map Prod.fst
      = (GetRoomID ⟨[⟨"alice", "u-alice-uuid", 1⟩, ⟨"bob", "u-bob-uuid", 2⟩], [], [], 0⟩
        "bob" "alice").map Prod.fst :=
  GetRoomID_commutative _ "alice" "bob" "u-alice-uuid" "u-bob-uuid" 1 2 rfl rfl

/-- C5: a handshake naming a participant unknown to the gateway ends the
call with Unauthenticated and has zero side effects: the final database
and registry equal the initial ones and the event trace is empty. -/
theorem joinChat_unknown_participant (send : SessionId → ChatMessage → Bool)
    (db0 : DBState) (reg0 : Registry) (sid : SessionId) (init : ChatMessage)
    (frames : List ChatMessage) (term : Terminal)
    (h1 : init.roomid ≠ "") (h2 : init.username ≠ "")
    (h3 : UserExists db0 init.username = false) :
    joinChat send db0 reg0 sid (some init) frames term
      = ⟨db0, reg0, [], .errCode .Unauthenticated⟩ := by
  have e1 : (init.roomid == "") = false := beq_eq_false_iff_ne.mpr h1
  have e2 : (init.username == "") = false := beq_eq_false_iff_ne.mpr h2
  simp [joinChat, e1, e2, h3]

/-- Witness for C5: user bob is absent from a database holding only
alice. -/
theorem joinChat_unknown_participant_witness :
    joinChat (fun _ _ => true) ⟨[⟨"alice", "u-alice-uuid", 1⟩], [], [], 0⟩ [] 7
        (some ⟨"r", "bob", "hi"⟩) [] .eof
      = ⟨⟨[⟨"alice", "u-alice-uuid", 1⟩], [], [], 0⟩, [], [], .errCode .Unauthenticated⟩ :=
  joinChat_unknown_participant (fun _ _ => true) ⟨[⟨"alice", "u-alice-uuid", 1⟩], [], [], 0⟩
    [] 7 ⟨"r", "bob", "hi"⟩ [] .eof (by decide) (by decide) (by decide)

/-- C6: a frame with an empty body received in the Active state causes
no persistence call and no broadcast, leaves the database unchanged, and
the receive loop simply continues with the remaining frames. -/
theorem activeLoop_empty_body_skipped (send : SessionId → ChatMessage → Bool)
    (reg : Registry) (senderID : String) (db : DBState) (m : ChatMessage)
    (rest : List ChatMessage) (h : m.message = "") :
    processFrame send reg senderID db m = (db, []) ∧
    processFrames send reg senderID db (m :: rest)
      = processFrames send reg senderID db rest := by
  constructor
  · simp [processFrame, h]
  · simp [processFrames, processFrame, h]

/-- Witness for C6 at a concrete empty-body frame. -/
theorem activeLoop_empty_body_skipped_witness :
    processFrame (fun _ _ => true) [("r", [0])] "TEMP_USER_u" ⟨[], [], [], 0⟩ ⟨"r", "u", ""⟩
      = (⟨[], [], [], 0⟩, []) ∧
    processFrames (fun _ _ => true) [("r", [0])] "TEMP_USER_u" ⟨[], [], [], 0⟩
        [⟨"r", "u", ""⟩, ⟨"r", "u", "hello"⟩]
      = processFrames (fun _ _ => true) [("r", [0])] "TEMP_USER_u" ⟨[], [], [], 0⟩
        [⟨"r", "u", "hello"⟩] :=
  activeLoop_empty_body_skipped (fun _ _ => true) [("r", [0])] "TEMP_USER_u" ⟨[], [], [], 0⟩
    ⟨"r", "u", ""⟩ [⟨"r", "u", "hello"⟩] rfl

/-- C8: during one broadcast pass every registered session of the room
gets exactly one Send attempt whose outcome depends only on that
session, so one failing recipient never blocks another; and the return
value of the stream handler is identical under any delivery behaviour,
so a recipient failure is never raised back to the originator. -/
theorem broadcast_per_recipient_isolation (send send2 : SessionId → ChatMessage → Bool)
    (reg : Registry) (roomID : String) (msg : ChatMessage) (c : SessionId)
    (db0 : DBState) (reg0 : Registry) (sid : SessionId) (initOpt : Option ChatMessage)
    (frames : List ChatMessage) (term : Terminal) :
    ((broadcastMessage send reg roomID msg).2.countP (fun a => a.1 == c)
        = (regGet reg roomID).count c)
    ∧ (∀ c2 ∈ regGet reg roomID, (c2, send c2 msg) ∈ (broadcastMessage send reg roomID msg).2)
    ∧ (joinChat send db0 reg0 sid initOpt frames term).outcome
        = (joinChat send2 db0 reg0 sid initOpt frames term).outcome := by
  refine ⟨?_, ?_, ?_⟩
  · simp only [broadcastMessage, List.countP_map]
    rfl
  · intro c2 hc2
    exact List.mem_map_of_mem (fun x => (x, send x msg)) hc2
  · rw [joinChat_outcome, joinChat_outcome]

/-- Witness for C8 with one healthy and one failing recipient. -/
theorem broadcast_per_recipient_isolation_witness :
    ((broadcastMessage (fun c _ => c == 1) [("r", [1, 2])] "r" ⟨"r", "u", "x"⟩).2.countP
        (fun a => a.1 == 1) = ([1, 2] : List SessionId).count 1)
    ∧ ((2, false) ∈ (broadcastMessage (fun c _ => c == 1) [("r", [1, 2])] "r" ⟨"r", "u", "x"⟩).2) :=
  ⟨by
    have h := (broadcast_per_recipient_isolation (fun c _ => c == 1) (fun _ _ => true)
      [("r", [1, 2])] "r" ⟨"r", "u", "x"⟩ 1 ⟨[], [], [], 0⟩ [] 0 none [] .eof).1
    simpa using h,
   by
    have h := (broadcast_per_recipient_isolation (fun c _ => c == 1) (fun _ _ => true)
      [("r", [1, 2])] "r" ⟨"r", "u", "x"⟩ 1 ⟨[], [], [], 0⟩ [] 0 none [] .eof).2.1 2 (by decide)
    simpa using h⟩

/-- C3, evaluation at the failing input: with two persisted messages in
room r (timestamps 0 and 1) and limit 1, `GetMessagesByRoomID` returns
the message with the earliest timestamp and omits the strictly more
recent one, although the claim (and the repository interface comment,
which promises recency) demands the most recent N. -/
theorem history_query_returns_oldest :
    GetMessagesByRoomID
        ⟨[], [], [⟨"r", "s", "u", "old", 0⟩, ⟨"r", "s", "u", "new", 1⟩], 2⟩ "r" 1
      = [⟨"r", "s", "u", "old", 0⟩] ∧
    (⟨"r", "s", "u", "new", 1⟩ : MessageRecord) ∉
      GetMessagesByRoomID
        ⟨[], [], [⟨"r", "s", "u", "old", 0⟩, ⟨"r", "s", "u", "new", 1⟩], 2⟩ "r" 1 ∧
    (⟨"r", "s", "u", "new", 1⟩ : MessageRecord) ∈
      (⟨[], [], [⟨"r", "s", "u", "old", 0⟩, ⟨"r", "s", "u", "new", 1⟩], 2⟩ : DBState).messages.filter
        (fun rec => rec.roomID == "r") := by
  refine ⟨by decide, by decide, by decide⟩

/-- C4: for registered identities whose uuids have at least 3
characters, `GetRoomID` returns the concatenation of the 3-character
prefixes of the two uuids ordered by creation timestamp ascending with
lexicographic tie break (the spec-side ordering `specOrderPair`); the
token has exactly 6 characters; and when A was created strictly first,
both argument orders yield the prefix of the uuid of A followed by the prefix
of the uuid of B. -/
theorem GetRoomID_prefix_token (db : DBState) (A B u1 u2 : String) (t1 t2 : Nat)
    (hA0 : A ≠ "") (hB0 : B ≠ "")
    (hA : GetUserInfo db A = some (u1, t1)) (hB : GetUserInfo db B = some (u2, t2))
    (hl1 : 3 ≤ u1.length) (hl2 : 3 ≤ u2.length) :
    (GetRoomID db A B).map Prod.fst
        = .ok (strTake (specOrderPair (u1, t1) (u2, t2)).1.1 3
            ++ strTake (specOrderPair (u1, t1) (u2, t2)).2.1 3) ∧
    (strTake (specOrderPair (u1, t1) (u2, t2)).1.1 3
        ++ strTake (specOrderPair (u1, t1) (u2, t2)).2.1 3).length = 6 ∧
    (t1 < t2 →
      (GetRoomID db A B).map Prod.fst = .ok (strTake u1 3 ++ strTake u2 3) ∧
      (GetRoomID db B A).map Prod.fst = .ok (strTake u1 3 ++ strTake u2 3)) := by
  have hord := orderUUIDs_eq_spec u1 t1 u2 t2
  have hc1 : (orderUUIDs u1 t1 u2 t2).1 = (specOrderPair (u1, t1) (u2, t2)).1.1 := by
    rw [hord]
  have hc2 : (orderUUIDs u1 t1 u2 t2).2 = (specOrderPair (u1, t1) (u2, t2)).2.1 := by
    rw [hord]
  have hcomp : (strTake (orderUUIDs u1 t1 u2 t2).1 3).length = 3 ∧
      (strTake (orderUUIDs u1 t1 u2 t2).2 3).length = 3 := by
    rcases orderUUIDs_cases u1 t1 u2 t2 with h | h <;> rw [h] <;>
      refine ⟨?_, ?_⟩ <;> rw [strTake_length] <;> simp only [] <;> omega
  refine ⟨?_, ?_, ?_⟩
  · rw [GetRoomID_valid db A B u1 u2 t1 t2 hA0 hB0 hA hB hl1 hl2, hc1, hc2]
    rfl
  · rw [← hc1, ← hc2, String.length_append, hcomp.1, hcomp.2]
  · intro hlt
    have h12 : orderUUIDs u1 t1 u2 t2 = (u1, u2) := by
      unfold orderUUIDs
      rw [if_pos (Or.inl hlt)]
    have h21 : orderUUIDs u2 t2 u1 t1 = (u1, u2) := by
      rw [orderUUIDs_comm u2 t2 u1 t1, h12]
    constructor
    · rw [GetRoomID_valid db A B u1 u2 t1 t2 hA0 hB0 hA hB hl1 hl2, h12]
      rfl
    · rw [GetRoomID_valid db B A u2 u1 t2 t1 hB0 hA0 hB hA hl2 hl1, h21]
      rfl

/-- Witness for C4 on the concrete alice/bob database from the spec
example. -/
theorem GetRoomID_prefix_token_witness :
    (GetRoomID ⟨[⟨"alice", "u-alice-uuid", 1⟩, ⟨"bob", "u-bob-uuid", 2⟩], [], [], 0⟩
        "alice" "bob").map Prod.fst = .ok "u-au-b" ∧
    (GetRoomID ⟨[⟨"alice", "u-alice-uuid", 1⟩, ⟨"bob", "u-bob-uuid", 2⟩], [], [], 0⟩
        "bob" "alice").map Prod.fst = .ok "u-au-b" ∧
    ("u-au-b" : String).length = 6 := by
  have h := GetRoomID_prefix_token
    ⟨[⟨"alice", "u-alice-uuid", 1⟩, ⟨"bob", "u-bob-uuid", 2⟩], [], [], 0⟩
    "alice" "bob" "u-alice-uuid" "u-bob-uuid" 1 2
    (by decide) (by decide) rfl rfl (by decide) (by decide)
  have h3 := h.2.2 (by decide)
  refine ⟨?_, ?_, by decide⟩
  · rw [h3.1]
    rfl
  · rw [h3.2]
    rfl

theorem cleanup_reg_of_empty (reg : Registry) (roomID : String) (sid : SessionId)
    (h : ((regGet reg roomID).filter (fun c => c ≠ sid)).isEmpty = true) :
    (cleanup reg roomID sid).1 = regDelete reg roomID := by
  simp only [cleanup, h, if_true]

theorem cleanup_reg_of_nonempty (reg : Registry) (roomID : String) (sid : SessionId)
    (h : ((regGet reg roomID).filter (fun c => c ≠ sid)).isEmpty = false) :
    (cleanup reg roomID sid).1
      = regSet reg roomID ((regGet reg roomID).filter (fun c => c ≠ sid)) := by
  simp only [cleanup, h, Bool.false_eq_true, if_false]

theorem filter_after_register (reg0 : Registry) (roomID : String) (sid : SessionId) :
    (regGet (regSet reg0 roomID (regGet reg0 roomID ++ [sid])) roomID).filter
        (fun c => c ≠ sid)
      = (regGet reg0 roomID).filter (fun c => c ≠ sid) := by
  rw [regGet_regSet_self]
  simp [List.filter_append]

/-- C7: whenever a session that passed the handshake (and was therefore
registered) reaches the end of its `JoinChat` call — graceful
end-of-stream, receive error, or cancellation — exactly one
unregistration event occurs, it names the handshake room and this
session, and when no other session remains in that room its entry is
removed from the registry map, otherwise the remaining sessions stay. -/
theorem joinChat_unregister_exactly_once (send : SessionId → ChatMessage → Bool)
    (db0 : DBState) (reg0 : Registry) (sid : SessionId) (init : ChatMessage)
    (frames : List ChatMessage) (term : Terminal)
    (h1 : init.roomid ≠ "") (h2 : init.username ≠ "")
    (h3 : UserExists db0 init.username = true) :
    ((joinChat send db0 reg0 sid (some init) frames term).events).countP Event.isUnregister = 1 ∧
    Event.unregister init.roomid sid
      ∈ (joinChat send db0 reg0 sid (some init) frames term).events ∧
    ((regGet reg0 init.roomid).filter (fun c => c ≠ sid) = [] →
      ∀ p ∈ (joinChat send db0 reg0 sid (some init) frames term).reg, p.1 ≠ init.roomid) ∧
    ((regGet reg0 init.roomid).filter (fun c => c ≠ sid) ≠ [] →
      regGet (joinChat send db0 reg0 sid (some init) frames term).reg init.roomid
        = (regGet reg0 init.roomid).filter (fun c => c ≠ sid)) := by
  simp only [joinChat_valid send db0 reg0 sid init frames term h1 h2 h3]
  refine ⟨?_, ?_, ?_, ?_⟩
  · rw [List.countP_append, List.countP_append, List.countP_append, List.countP_append,
      countP_unregister_replayLoop, countP_unregister_processFrames, countP_unregister_cleanup]
    have hmap : ((regGet reg0 init.roomid ++ [sid]).map
        (fun c => Event.bcast init.roomid c init (send c init))).countP Event.isUnregister
          = 0 := by
      rw [List.countP_eq_zero]
      intro e he
      rcases List.mem_map.mp he with ⟨c, _, rfl⟩
      simp [Event.isUnregister]
    rw [hmap]
    simp [List.countP_cons, Event.isUnregister]
  · simp only [List.mem_append]
    exact Or.inr (unregister_mem_cleanup _ _ _)
  · intro hrem p hp
    have hemp : ((regGet (regSet reg0 init.roomid (regGet reg0 init.roomid ++ [sid]))
        init.roomid).filter (fun c => c ≠ sid)).isEmpty = true := by
      rw [filter_after_register, hrem]
      rfl
    rw [cleanup_reg_of_empty _ _ _ hemp] at hp
    exact mem_regDelete _ _ _ hp
  · intro hrem
    have hemp : ((regGet (regSet reg0 init.roomid (regGet reg0 init.roomid ++ [sid]))
        init.roomid).filter (fun c => c ≠ sid)).isEmpty = false := by
      rw [filter_after_register]
      exact List.isEmpty_eq_false.mpr hrem
    rw [cleanup_reg_of_nonempty _ _ _ hemp, regGet_regSet_self, filter_after_register]

/-- Witness for C7: a lone joiner of room r unregisters once and the
emptied room entry is deleted. -/
theorem joinChat_unregister_exactly_once_witness :
    ((joinChat (fun _ _ => true) ⟨[⟨"u", "uuu-1", 0⟩], [], [], 0⟩ [] 7
        (some ⟨"r", "u", "hi"⟩) [] .eof).events).countP Event.isUnregister = 1 ∧
    ∀ p ∈ (joinChat (fun _ _ => true) ⟨[⟨"u", "uuu-1", 0⟩], [], [], 0⟩ [] 7
        (some ⟨"r", "u", "hi"⟩) [] .eof).reg, p.1 ≠ "r" :=
  ⟨(joinChat_unregister_exactly_once (fun _ _ => true) ⟨[⟨"u", "uuu-1", 0⟩], [], [], 0⟩
      [] 7 ⟨"r", "u", "hi"⟩ [] .eof (by decide) (by decide) (by decide)).1,
   (joinChat_unregister_exactly_once (fun _ _ => true) ⟨[⟨"u", "uuu-1", 0⟩], [], [], 0⟩
      [] 7 ⟨"r", "u", "hi"⟩ [] .eof (by decide) (by decide) (by decide)).2.2.1 (by decide)⟩

/-- C9: a non-empty frame received in the Active state is persisted and
broadcast under the room identifier carried in the frame itself — the
saved record and every delivery of that pass name `msg.roomid` and the
recipients are the sessions registered in `msg.roomid` — while the
registration of the session itself (the only register event of its call) is for
the handshake room. -/
theorem activeLoop_uses_frame_room (send : SessionId → ChatMessage → Bool)
    (reg : Registry) (senderID : String) (db : DBState) (msg : ChatMessage)
    (db0 : DBState) (reg0 : Registry) (sid : SessionId) (init : ChatMessage)
    (frames : List ChatMessage) (term : Terminal)
    (hm : msg.message ≠ "") (h1 : init.roomid ≠ "") (h2 : init.username ≠ "")
    (h3 : UserExists db0 init.username = true) :
    (processFrame send reg senderID db msg).1
        = SaveMessage db msg.roomid senderID msg.username msg.message ∧
    (processFrame send reg senderID db msg).2
        = Event.save msg.roomid senderID msg.username msg.message
            :: (regGet reg msg.roomid).map (fun c => Event.bcast msg.roomid c msg (send c msg)) ∧
    (∀ r s, Event.register r s ∈ (joinChat send db0 reg0 sid (some init) frames term).events →
      r = init.roomid ∧ s = sid) := by
  have em : (msg.message == "") = false := beq_eq_false_iff_ne.mpr hm
  refine ⟨?_, ?_, ?_⟩
  · simp [processFrame, em]
  · simp [processFrame, em, broadcastMessage, List.map_map]
  · simp only [joinChat_valid send db0 reg0 sid init frames term h1 h2 h3]
    intro r s hmem
    rcases List.mem_append.mp hmem with hmem2 | hcl
    · rcases List.mem_append.mp hmem2 with hmem3 | hfr
      · rcases List.mem_append.mp hmem3 with hmem4 | hbc
        · rcases List.mem_append.mp hmem4 with hrp | hrs
          · rcases mem_replayLoop _ _ _ _ hrp with ⟨m2, ok, hbad⟩
            simp at hbad
          · rcases List.mem_cons.mp hrs with hh | hh
            · injection hh with ha hb
              exact ⟨ha, hb⟩
            · simp at hh
        · rcases List.mem_map.mp hbc with ⟨c, _, hbad⟩
          simp at hbad
      · rcases mem_processFrames_events _ _ _ _ _ _ hfr with ⟨a, b, c, d, hbad⟩ | ⟨a, b, c, d, hbad⟩ <;>
          simp at hbad
    · rcases mem_cleanup_events _ _ _ _ hcl with hbad | hbad <;> simp at hbad

/-- Witness for C9: a frame naming room q while the session joined room
r is saved under q and broadcast to the sessions of q. -/
theorem activeLoop_uses_frame_room_witness :
    (processFrame (fun _ _ => true) [("q", [9])] "TEMP_USER_u" ⟨[], [], [], 0⟩
        ⟨"q", "u", "zz"⟩).1
      = SaveMessage ⟨[], [], [], 0⟩ "q" "TEMP_USER_u" "u" "zz" ∧
    (processFrame (fun _ _ => true) [("q", [9])] "TEMP_USER_u" ⟨[], [], [], 0⟩
        ⟨"q", "u", "zz"⟩).2
      = Event.save "q" "TEMP_USER_u" "u" "zz"
          :: [Event.bcast "q" 9 ⟨"q", "u", "zz"⟩ true] :=
  ⟨(activeLoop_uses_frame_room (fun _ _ => true) [("q", [9])] "TEMP_USER_u" ⟨[], [], [], 0⟩
      ⟨"q", "u", "zz"⟩ ⟨[⟨"u", "uuu-1", 0⟩], [], [], 0⟩ [] 7 ⟨"r", "u", "hi"⟩ [] .eof
      (by decide) (by decide) (by decide) (by decide)).1,
   by
    have h := (activeLoop_uses_frame_room (fun _ _ => true) [("q", [9])] "TEMP_USER_u"
      ⟨[], [], [], 0⟩ ⟨"q", "u", "zz"⟩ ⟨[⟨"u", "uuu-1", 0⟩], [], [], 0⟩ [] 7 ⟨"r", "u", "hi"⟩
      [] .eof (by decide) (by decide) (by decide) (by decide)).2.1
    simpa using h⟩

/-- C10: a handshake frame with an empty body but valid room, name and
known participant is accepted: the session registers, the empty body is
persisted as the join message, and the join message is broadcast to
every session of the room including the joiner; the outcome of the call is
determined by how the stream later ends. -/
theorem joinChat_handshake_empty_body_accepted (send : SessionId → ChatMessage → Bool)
    (db0 : DBState) (reg0 : Registry) (sid : SessionId) (init : ChatMessage)
    (frames : List ChatMessage) (term : Terminal)
    (h1 : init.roomid ≠ "") (h2 : init.username ≠ "")
    (h3 : UserExists db0 init.username = true) (h4 : init.message = "") :
    Event.register init.roomid sid
      ∈ (joinChat send db0 reg0 sid (some init) frames term).events ∧
    Event.save init.roomid ("TEMP_USER_" ++ init.username) init.username ""
      ∈ (joinChat send db0 reg0 sid (some init) frames term).events ∧
    (∀ c ∈ regGet reg0 init.roomid ++ [sid],
      Event.bcast init.roomid c init (send c init)
        ∈ (joinChat send db0 reg0 sid (some init) frames term).events) ∧
    (⟨init.roomid, "TEMP_USER_" ++ init.username, init.username, "", db0.clock⟩ : MessageRecord)
      ∈ (joinChat send db0 reg0 sid (some init) frames term).db.messages ∧
    (joinChat send db0 reg0 sid (some init) frames term).outcome
      = match term with
        | .eof => Outcome.ok
        | .recvErr => Outcome.recvError := by
  simp only [joinChat_valid send db0 reg0 sid init frames term h1 h2 h3, h4]
  refine ⟨?_, ?_, ?_, ?_, ?_⟩
  · simp only [List.mem_append, List.mem_cons]
    tauto
  · simp only [List.mem_append, List.mem_cons]
    tauto
  · intro c hc
    simp only [List.mem_append]
    exact Or.inl (Or.inl (Or.inr (List.mem_map_of_mem _ hc)))
  · apply mem_messages_processFrames
    simp [SaveMessage]
  · trivial

/-- Witness for C10: an empty-body handshake from user u is saved and
the join is accepted. -/
theorem joinChat_handshake_empty_body_accepted_witness :
    Event.save "r" "TEMP_USER_u" "u" ""
      ∈ (joinChat (fun _ _ => true) ⟨[⟨"u", "uuu-1", 0⟩], [], [], 0⟩ [] 7
          (some ⟨"r", "u", ""⟩) [] .eof).events ∧
    (⟨"r", "TEMP_USER_u", "u", "", 0⟩ : MessageRecord)
      ∈ (joinChat (fun _ _ => true) ⟨[⟨"u", "uuu-1", 0⟩], [], [], 0⟩ [] 7
          (some ⟨"r", "u", ""⟩) [] .eof).db.messages :=
  ⟨(joinChat_handshake_empty_body_accepted (fun _ _ => true) ⟨[⟨"u", "uuu-1", 0⟩], [], [], 0⟩
      [] 7 ⟨"r", "u", ""⟩ [] .eof (by decide) (by decide) (by decide) rfl).2.1,
   (joinChat_handshake_empty_body_accepted (fun _ _ => true) ⟨[⟨"u", "uuu-1", 0⟩], [], [], 0⟩
      [] 7 ⟨"r", "u", ""⟩ [] .eof (by decide) (by decide) (by decide) rfl).2.2.2.1⟩

end ChatCore
